import Mathlib

/-!
Verification development for the neon-snake-lounge repository.

The single source file (src/src/pages/Index.tsx) implements a grid snake
game as a React component.  This file gives a shallow embedding of its
state machine:

  * the React useState fields become the fields of the GameState structure;
  * the game-loop interval callback (Index.tsx lines 131-200) becomes the
    pure function tick;
  * generateFood (lines 53-64), spawnObstacle (lines 113-121), startGame
    (lines 320-331) and the arrow-key branch of handleKeyPress
    (lines 81-102) become pure functions of the same names;
  * Math.random is modelled as an explicit stream of candidate cells,
    so that the rejection-sampling loop of generateFood becomes a search
    for the first candidate not rejected (Nat.find);
  * the toast messages of the three terminal branches become the
    CollisionKind value returned by tick;
  * the timer system (setInterval for the game loop and obstacle spawner,
    setTimeout for obstacle expiry) is modelled twice: untimed, as the
    Step relation on GameState, and timed, as the HazStep relation on
    HazSys, which records absolute firing times of the obstacle timers.

Presentation-only fields (canvas drawing, showScorePop,
showDifficultySelect, difficulty selection) are omitted: no claim
concerns them and they never feed back into the simulation state.
-/

/-- Direction type of Index.tsx line 7. -/
inductive Direction : Type
  | UP
  | DOWN
  | LEFT
  | RIGHT
deriving DecidableEq, Repr

/-- Position type of Index.tsx line 8.  Coordinates are integers: the
speculative head of a move may leave the grid (for example x = -1), which
is exactly what the wall check detects. -/
structure Pos : Type where
  x : Int
  y : Int
deriving DecidableEq, Repr

instance : Inhabited Pos := ⟨⟨0, 0⟩⟩

/-- GRID_SIZE constant of Index.tsx line 11. -/
def GRID_SIZE : Int := 20

/-- INITIAL_SNAKE constant of Index.tsx lines 13-17. -/
def INITIAL_SNAKE : List Pos := [⟨10, 10⟩, ⟨9, 10⟩, ⟨8, 10⟩]

/-- INITIAL_DIRECTION constant of Index.tsx line 18. -/
def INITIAL_DIRECTION : Direction := Direction.RIGHT

/-- Collision classification.  The source reports the three terminal
branches through distinct toast messages (Index.tsx lines 156, 164, 172);
the spec calls them CollisionKind Wall, Self and Hazard. -/
inductive CollisionKind : Type
  | Wall
  | Self
  | Hazard
deriving DecidableEq, Repr

/-- Membership test used verbatim in three places of the source:
the rejection condition of generateFood (line 61), the self-collision
check (line 161) and, with a singleton list, the obstacle check shape.
It is the JS expression list.some(segment implies segment.x === p.x and
segment.y === p.y). -/
def hitsCell (body : List Pos) (p : Pos) : Bool :=
  body.any (fun segment => segment.x == p.x && segment.y == p.y)

/-- generateFood of Index.tsx lines 53-64.  The do-while loop draws
candidates from Math.random; here the draws are the explicit stream, and
the loop returns the first candidate that the occupancy list does not
hit.  The hypothesis h states that such a candidate exists: without it
the JS loop would run forever, which is exactly the statement of the
termination claim proved below. -/
def generateFood (currentSnake : List Pos) (stream : Nat → Pos)
    (h : ∃ n, hitsCell currentSnake (stream n) = false) : Pos :=
  stream (Nat.find h)

/-- Wall test of Index.tsx line 153. -/
def wallCollision (head : Pos) : Bool :=
  decide (head.x < 0) || decide (GRID_SIZE ≤ head.x) ||
    decide (head.y < 0) || decide (GRID_SIZE ≤ head.y)

/-- Obstacle test of Index.tsx line 169: obstacle truthiness plus
coordinate equality. -/
def obstacleCollision (obstacle : Option Pos) (head : Pos) : Bool :=
  match obstacle with
  | none => false
  | some o => head.x == o.x && head.y == o.y

/-- Head displacement switch of Index.tsx lines 137-150. -/
def moveHead (d : Direction) (p : Pos) : Pos :=
  match d with
  | Direction.UP => ⟨p.x, p.y - 1⟩
  | Direction.DOWN => ⟨p.x, p.y + 1⟩
  | Direction.LEFT => ⟨p.x - 1, p.y⟩
  | Direction.RIGHT => ⟨p.x + 1, p.y⟩

/-- The React useState fields of Index.tsx lines 31-41 that take part in
the simulation, plus the persisted localStorage value snakeHighScore
(none models an absent key). -/
structure GameState : Type where
  snake : List Pos
  direction : Direction
  food : Pos
  isGameOver : Bool
  isPlaying : Bool
  isPaused : Bool
  score : Nat
  highScore : Nat
  stored : Option Nat
  obstacle : Option Pos
deriving DecidableEq, Repr

/-- Speculative new head of the next tick: newSnake[0] moved one cell in
the committed direction (Index.tsx lines 133-150). -/
def newHead (s : GameState) : Pos :=
  moveHead s.direction s.snake.headI

/-- Game-loop interval callback of Index.tsx lines 131-200, as a pure
function of the captured state.  The branches are in source order: wall
check, self check, obstacle check, unshift, food check with score and
high-score update and food regeneration, else pop.  The stream and the
hypothesis hgen feed the generateFood call of line 193; hgen is only
needed on the growing branch and asserts that the sampler can find a
cell free of the post-move body. -/
def tick (s : GameState) (stream : Nat → Pos)
    (hgen : ∃ n, hitsCell (newHead s :: s.snake) (stream n) = false) :
    GameState × Option CollisionKind :=
  if wallCollision (newHead s) then
    ({ s with isGameOver := true, isPlaying := false }, some CollisionKind.Wall)
  else if hitsCell s.snake (newHead s) then
    ({ s with isGameOver := true, isPlaying := false }, some CollisionKind.Self)
  else if obstacleCollision s.obstacle (newHead s) then
    ({ s with isGameOver := true, isPlaying := false }, some CollisionKind.Hazard)
  else if (newHead s).x == s.food.x && (newHead s).y == s.food.y then
    if s.highScore < s.score + 1 then
      ({ s with snake := newHead s :: s.snake,
                score := s.score + 1,
                highScore := s.score + 1,
                stored := some (s.score + 1),
                food := generateFood (newHead s :: s.snake) stream hgen }, none)
    else
      ({ s with snake := newHead s :: s.snake,
                score := s.score + 1,
                food := generateFood (newHead s :: s.snake) stream hgen }, none)
  else
    ({ s with snake := (newHead s :: s.snake).dropLast }, none)

/-- startGame of Index.tsx lines 320-331: fresh snake, fresh direction,
fresh food sampled against INITIAL_SNAKE, score 0, flags reset, obstacle
cleared.  highScore and the persisted value are untouched. -/
def startGame (s : GameState) (stream : Nat → Pos)
    (h : ∃ n, hitsCell INITIAL_SNAKE (stream n) = false) : GameState :=
  { s with snake := INITIAL_SNAKE,
           direction := INITIAL_DIRECTION,
           food := generateFood INITIAL_SNAKE stream h,
           score := 0,
           isGameOver := false,
           isPlaying := true,
           isPaused := false,
           obstacle := none }

/-- spawnObstacle of Index.tsx lines 113-121: a cell sampled by
generateFood against the snake concatenated with the current obstacle
(when present) becomes the new obstacle.  The expiry setTimeout it arms
is modelled by the expire step and by the timed HazSys model below. -/
def spawnObstacle (s : GameState) (stream : Nat → Pos)
    (h : ∃ n, hitsCell (s.snake ++ s.obstacle.toList) (stream n) = false) :
    GameState :=
  { s with obstacle := some (generateFood (s.snake ++ s.obstacle.toList) stream h) }

/-- Arrow keys handled by handleKeyPress (Index.tsx lines 81-97).  The
space key (pause and start) is modelled by the corresponding Step rules. -/
inductive ArrowKey : Type
  | up
  | down
  | left
  | right
deriving DecidableEq, Repr

/-- Direction branch of handleKeyPress, Index.tsx lines 81-102: each
arrow key replaces the direction unless the stored direction is the
reverse of the key.  The comparison is against the current value of the
direction state, which the listener re-captures after every change. -/
def handleKeyPress (d : Direction) (k : ArrowKey) : Direction :=
  match k with
  | ArrowKey.up => if d ≠ Direction.DOWN then Direction.UP else d
  | ArrowKey.down => if d ≠ Direction.UP then Direction.DOWN else d
  | ArrowKey.left => if d ≠ Direction.RIGHT then Direction.LEFT else d
  | ArrowKey.right => if d ≠ Direction.LEFT then Direction.RIGHT else d

/-- Opposite relation on headings, from section 3 of the spec (needed to
state the reversal claims; the source encodes it by the four literal
comparisons of handleKeyPress). -/
def opposite : Direction → Direction
  | Direction.UP => Direction.DOWN
  | Direction.DOWN => Direction.UP
  | Direction.LEFT => Direction.RIGHT
  | Direction.RIGHT => Direction.LEFT

/-- State of the component after mount and after the high-score loading
effect of Index.tsx lines 45-50 has run: the useState initialisers of
lines 31-41, with highScore replaced by the stored value when the
snakeHighScore key is present. -/
def initialState (h0 : Option Nat) : GameState :=
  { snake := INITIAL_SNAKE,
    direction := INITIAL_DIRECTION,
    food := ⟨15, 15⟩,
    isGameOver := false,
    isPlaying := false,
    isPaused := false,
    score := 0,
    highScore := h0.getD 0,
    stored := h0,
    obstacle := none }

/-- Untimed transition relation of the whole component.  Each rule is one
of the event handlers of Index.tsx, guarded as the source guards it:
  * tickStep: the game-loop callback, registered only while playing and
    neither over nor paused (line 129);
  * keyStep: an arrow key, processed only while playing and not paused
    (line 69);
  * startStep: startGame, reached from the start button or from space
    while not playing (lines 72-73, 394);
  * spawnStep: the obstacle interval callback, registered only while
    playing and neither over nor paused (line 111);
  * expireStep: the expiry setTimeout of line 118, which is never
    cancelled and therefore may fire in any state;
  * pauseStep: the pause toggle (lines 75, 100, 333-337);
  * menuStep: returnToMainMenu, lines 339-346. -/
inductive Step : GameState → GameState → Prop
  | tickStep (s : GameState) (stream : Nat → Pos)
      (hgen : ∃ n, hitsCell (newHead s :: s.snake) (stream n) = false)
      (hp : s.isPlaying = true) (hg : s.isGameOver = false)
      (hq : s.isPaused = false) :
      Step s (tick s stream hgen).1
  | keyStep (s : GameState) (k : ArrowKey)
      (hp : s.isPlaying = true) (hq : s.isPaused = false) :
      Step s { s with direction := handleKeyPress s.direction k }
  | startStep (s : GameState) (stream : Nat → Pos)
      (h : ∃ n, hitsCell INITIAL_SNAKE (stream n) = false) :
      Step s (startGame s stream h)
  | spawnStep (s : GameState) (stream : Nat → Pos)
      (h : ∃ n, hitsCell (s.snake ++ s.obstacle.toList) (stream n) = false)
      (hp : s.isPlaying = true) (hg : s.isGameOver = false)
      (hq : s.isPaused = false) :
      Step s (spawnObstacle s stream h)
  | expireStep (s : GameState) :
      Step s { s with obstacle := none }
  | pauseStep (s : GameState) (hp : s.isPlaying = true) :
      Step s { s with isPaused := !s.isPaused }
  | menuStep (s : GameState) :
      Step s { s with isPlaying := false, isGameOver := false,
                      isPaused := false, obstacle := none }

/-- States reachable from the freshly mounted component whose stored high
score was h0. -/
inductive ReachableG (h0 : Option Nat) : GameState → Prop
  | init : ReachableG h0 (initialState h0)
  | step {s t : GameState} : ReachableG h0 s → Step s t → ReachableG h0 t

/-- Finite execution fragment: TraceG s t l holds when l is the list of
states visited by a run of Step from s to t, s first and t last. -/
inductive TraceG : GameState → GameState → List GameState → Prop
  | single (s : GameState) : TraceG s s [s]
  | cons {s t u : GameState} {l : List GameState} :
      Step s t → TraceG t u l → TraceG s u (s :: l)

/-- Largest score attained in a list of states (0 for the empty list). -/
def maxScore (l : List GameState) : Nat :=
  l.foldr (fun s m => max s.score m) 0

/-- OBSTACLE_SPAWN_INTERVAL constant of Index.tsx line 27, in
milliseconds. -/
def OBSTACLE_SPAWN_INTERVAL : Nat := 8000

/-- Obstacle lifetime: the literal 5000 of the setTimeout on Index.tsx
lines 118-120 (source comment: remove obstacle after 5 seconds). -/
def OBSTACLE_LIFETIME : Nat := 5000

/-- Timed state of the obstacle subsystem.  It abstracts from cell
contents (the spawned cell is chosen by spawnObstacle above and is
irrelevant to the timing claims) and records:
  * now: the current time in milliseconds;
  * lastStart: the time of the most recent startGame;
  * running: whether the obstacle-spawning effect of Index.tsx
    lines 110-125 is active, that is isPlaying and not isGameOver and
    not isPaused;
  * obstacle: the spawn time of the live obstacle, if any;
  * timeouts: the spawn times whose expiry setTimeout (line 118) is
    still pending - these one-shots are never cancelled by the source;
  * nextFire: the next firing time of the spawn setInterval (line 123),
    none when the effect is torn down. -/
structure HazSys : Type where
  now : Nat
  lastStart : Nat
  running : Bool
  obstacle : Option Nat
  timeouts : List Nat
  nextFire : Option Nat
deriving DecidableEq, Repr

/-- Timed transition relation of the obstacle subsystem, one rule per
event of the single-threaded browser event loop:
  * startEv: startGame at time r - clears the obstacle (line 328),
    records the run start, and the effect re-registration schedules the
    first spawn a full OBSTACLE_SPAWN_INTERVAL later.  The pending
    expiry one-shots are NOT cancelled: that is the point of the stale
    callback claim;
  * stopEv: pause or game over at time r - the effect cleanup (line 124)
    clears the spawn interval; the obstacle and the pending expiries
    survive;
  * menuEv: returnToMainMenu at time r - additionally clears the
    obstacle (line 344);
  * armEv: the effect (re)registers its interval at time r while the
    game is running - on resume from pause or on any dependency change
    of the effect (line 125 lists snake and obstacle among the deps);
  * spawnEv: the interval fires at its scheduled time f; it runs
    spawnObstacle, which sets an obstacle and arms its expiry; the
    interval reschedules one period later.  The event-loop premise hord
    says no pending expiry was due strictly before f (an earlier-due
    timeout runs first on a single-threaded loop);
  * expireEv: a pending expiry fires at its scheduled time; it executes
    setObstacle(null) (line 119) unconditionally and is removed from the
    pending set. -/
inductive HazStep : HazSys → HazSys → Prop
  | startEv (s : HazSys) (r : Nat) (hr : s.now ≤ r) :
      HazStep s { now := r, lastStart := r, running := true, obstacle := none,
                  timeouts := s.timeouts,
                  nextFire := some (r + OBSTACLE_SPAWN_INTERVAL) }
  | stopEv (s : HazSys) (r : Nat) (hr : s.now ≤ r) :
      HazStep s { s with now := r, running := false, nextFire := none }
  | menuEv (s : HazSys) (r : Nat) (hr : s.now ≤ r) :
      HazStep s { s with now := r, running := false, obstacle := none, nextFire := none }
  | armEv (s : HazSys) (r : Nat) (hr : s.now ≤ r) :
      HazStep s { s with now := r, running := true, nextFire := some (r + OBSTACLE_SPAWN_INTERVAL) }
  | spawnEv (s : HazSys) (f : Nat) (hrun : s.running = true)
      (hf : s.nextFire = some f) (hnow : s.now ≤ f)
      (hord : ∀ τ ∈ s.timeouts, f ≤ τ + OBSTACLE_LIFETIME) :
      HazStep s { now := f, lastStart := s.lastStart, running := true,
                  obstacle := some f, timeouts := f :: s.timeouts,
                  nextFire := some (f + OBSTACLE_SPAWN_INTERVAL) }
  | expireEv (s : HazSys) (τ : Nat) (hmem : τ ∈ s.timeouts)
      (hnow : s.now ≤ τ + OBSTACLE_LIFETIME) :
      HazStep s { s with now := τ + OBSTACLE_LIFETIME, obstacle := none, timeouts := s.timeouts.erase τ }

/-- State of the obstacle subsystem when the page loads: time zero, not
running, no obstacle, no pending timer. -/
def hazInit : HazSys :=
  { now := 0, lastStart := 0, running := false, obstacle := none,
    timeouts := [], nextFire := none }

/-- Timed states reachable from page load. -/
inductive HazReach : HazSys → Prop
  | init : HazReach hazInit
  | step {s t : HazSys} : HazReach s → HazStep s t → HazReach t

/-- Inductive invariant of the timed obstacle subsystem:
  1. the run start is in the past;
  2. while the spawn interval is armed, its next firing is at least one
     full spawn period after the run start;
  3. a live obstacle was spawned during the current run, in the past,
     and its own expiry is still pending;
  4. while an expiry armed before the current run start is pending, no
     obstacle is live;
  5. while an obstacle is live and the interval armed, the next firing
     is at least one full spawn period after the spawn of the obstacle. -/
def HazInv (s : HazSys) : Prop :=
  s.lastStart ≤ s.now ∧
  (s.running = true → ∀ f, s.nextFire = some f →
    s.lastStart + OBSTACLE_SPAWN_INTERVAL ≤ f) ∧
  (∀ t0, s.obstacle = some t0 →
    s.lastStart ≤ t0 ∧ t0 ≤ s.now ∧ t0 ∈ s.timeouts) ∧
  (∀ τ ∈ s.timeouts, τ < s.lastStart → s.obstacle = none) ∧
  (∀ t0, s.obstacle = some t0 → ∀ f, s.nextFire = some f →
    t0 + OBSTACLE_SPAWN_INTERVAL ≤ f)

/-- Two positions are equal exactly when both coordinates agree (the
equality semantics of the spec, section 3, and of the pairwise === tests
of the source). -/
theorem Pos.eq_iff {a b : Pos} : a = b ↔ a.x = b.x ∧ a.y = b.y := by
  cases a; cases b; simp

/-- Failing the some(...) membership test means the cell is not in the
list. -/
theorem hitsCell_eq_false {body : List Pos} {p : Pos} :
    hitsCell body p = false ↔ p ∉ body := by
  simp only [hitsCell, List.any_eq_false, Bool.and_eq_true, beq_iff_eq]
  constructor
  · intro h hmem
    exact h p hmem ⟨rfl, rfl⟩
  · intro h segment hseg hc
    have hsp : segment = p := Pos.eq_iff.mpr hc
    exact h (hsp ▸ hseg)

/-- Passing the some(...) membership test means the cell is in the
list. -/
theorem hitsCell_eq_true {body : List Pos} {p : Pos} :
    hitsCell body p = true ↔ p ∈ body := by
  rw [← Bool.not_eq_false, not_iff_comm.mp (Iff.symm hitsCell_eq_false)]

/-- The cell returned by generateFood fails the rejection test against
the occupancy list it was given. -/
theorem generateFood_free (currentSnake : List Pos) (stream : Nat → Pos)
    (h : ∃ n, hitsCell currentSnake (stream n) = false) :
    hitsCell currentSnake (generateFood currentSnake stream h) = false :=
  Nat.find_spec h

/-- The cell returned by generateFood is not occupied by any cell of the
occupancy list it was given. -/
theorem generateFood_not_mem (currentSnake : List Pos) (stream : Nat → Pos)
    (h : ∃ n, hitsCell currentSnake (stream n) = false) :
    generateFood currentSnake stream h ∉ currentSnake :=
  hitsCell_eq_false.mp (generateFood_free currentSnake stream h)

/-- The food test of Index.tsx line 179 succeeds exactly when the new
head equals the food cell. -/
theorem eatTest_iff {head food : Pos} :
    (head.x == food.x && head.y == food.y) = true ↔ head = food := by
  rw [Pos.eq_iff]
  simp

/-- One tick preserves the disjointness of food and snake. -/
theorem foodInv_tick (s : GameState) (stream : Nat → Pos)
    (hgen : ∃ n, hitsCell (newHead s :: s.snake) (stream n) = false)
    (hinv : s.food ∉ s.snake) :
    (tick s stream hgen).1.food ∉ (tick s stream hgen).1.snake := by
  unfold tick
  split_ifs with hw hs ho he hh
  · simpa using hinv
  · simpa using hinv
  · simpa using hinv
  · simpa using generateFood_not_mem (newHead s :: s.snake) stream hgen
  · simpa using generateFood_not_mem (newHead s :: s.snake) stream hgen
  · simp only
    intro hmem
    have hmem2 := List.dropLast_subset _ hmem
    rcases List.mem_cons.mp hmem2 with hcase | hcase
    · exact he (eatTest_iff.mpr hcase.symm)
    · exact hinv hcase

/-- Every Step preserves the disjointness of food and snake. -/
theorem foodInv_step {s t : GameState} (hst : Step s t)
    (hinv : s.food ∉ s.snake) : t.food ∉ t.snake := by
  cases hst with
  | tickStep stream hgen hp hg hq => exact foodInv_tick s stream hgen hinv
  | keyStep k hp hq => simpa using hinv
  | startStep stream h =>
      simpa [startGame] using generateFood_not_mem INITIAL_SNAKE stream h
  | spawnStep stream h hp hg hq => simpa [spawnObstacle] using hinv
  | expireStep => simpa using hinv
  | pauseStep hp => simpa using hinv
  | menuStep => simpa using hinv

/-- In every reachable state the food cell is outside the snake body. -/
theorem foodInv {h0 : Option Nat} {s : GameState} (h : ReachableG h0 s) :
    s.food ∉ s.snake := by
  induction h with
  | init =>
      show (⟨15, 15⟩ : Pos) ∉ INITIAL_SNAKE
      decide
  | step hr hst ih => exact foodInv_step hst ih

/-- The obstacle lifetime is shorter than the spawn period (5000 versus
8000 milliseconds in the source constants). -/
theorem lifetime_lt_interval : OBSTACLE_LIFETIME < OBSTACLE_SPAWN_INTERVAL := by
  decide

/-- The initial timed state satisfies the invariant. -/
theorem hazInv_init : HazInv hazInit := by
  refine ⟨le_refl 0, ?_, ?_, ?_, ?_⟩
  · intro _ f hf
    exact absurd hf (by simp [hazInit])
  · intro t0 h
    exact absurd h (by simp [hazInit])
  · intro τ hmem _
    exact absurd hmem (by simp [hazInit])
  · intro t0 h
    exact absurd h (by simp [hazInit])

/-- Every timed step preserves the invariant. -/
theorem hazInv_step {s t : HazSys} (hst : HazStep s t) (hinv : HazInv s) :
    HazInv t := by
  obtain ⟨hA, hB, hC, hD, hE⟩ := hinv
  cases hst with
  | startEv r hr =>
      dsimp only [HazInv]
      refine ⟨le_refl r, ?_, ?_, ?_, ?_⟩
      · intro _ f hf
        simp only [Option.some.injEq] at hf
        omega
      · intro t0 h
        exact absurd h (by simp)
      · intro τ hmem hlt
        rfl
      · intro t0 h
        exact absurd h (by simp)
  | stopEv r hr =>
      dsimp only [HazInv]
      refine ⟨le_trans hA hr, ?_, ?_, ?_, ?_⟩
      · intro _ f hf
        exact absurd hf (by simp)
      · intro t0 h
        obtain ⟨h1, h2, h3⟩ := hC t0 h
        exact ⟨h1, le_trans h2 hr, h3⟩
      · intro τ hmem hlt
        exact hD τ hmem hlt
      · intro t0 h f hf
        exact absurd hf (by simp)
  | menuEv r hr =>
      dsimp only [HazInv]
      refine ⟨le_trans hA hr, ?_, ?_, ?_, ?_⟩
      · intro _ f hf
        exact absurd hf (by simp)
      · intro t0 h
        exact absurd h (by simp)
      · intro τ hmem hlt
        rfl
      · intro t0 h
        exact absurd h (by simp)
  | armEv r hr =>
      dsimp only [HazInv]
      refine ⟨le_trans hA hr, ?_, ?_, ?_, ?_⟩
      · intro _ f hf
        simp only [Option.some.injEq] at hf
        have h1 : s.lastStart ≤ r := le_trans hA hr
        omega
      · intro t0 h
        obtain ⟨h1, h2, h3⟩ := hC t0 h
        exact ⟨h1, le_trans h2 hr, h3⟩
      · intro τ hmem hlt
        exact hD τ hmem hlt
      · intro t0 h f hf
        simp only [Option.some.injEq] at hf
        obtain ⟨_, h2, _⟩ := hC t0 h
        have h4 : t0 ≤ r := le_trans h2 hr
        omega
  | spawnEv f hrun hf hnow hord =>
      have hBf : s.lastStart + OBSTACLE_SPAWN_INTERVAL ≤ f := hB hrun f hf
      dsimp only [HazInv]
      refine ⟨by omega, ?_, ?_, ?_, ?_⟩
      · intro _ g hg
        simp only [Option.some.injEq] at hg
        omega
      · intro t0 h
        simp only [Option.some.injEq] at h
        subst h
        exact ⟨by omega, le_refl f, List.mem_cons_self f s.timeouts⟩
      · intro τ hmem hlt
        exfalso
        rcases List.mem_cons.mp hmem with hcase | hcase
        · omega
        · have hlate := hord τ hcase
          have hLI := lifetime_lt_interval
          omega
      · intro t0 h g hg
        simp only [Option.some.injEq] at h hg
        omega
  | expireEv τ hmem hnow =>
      dsimp only [HazInv]
      refine ⟨by omega, ?_, ?_, ?_, ?_⟩
      · intro hrun g hg
        exact hB hrun g hg
      · intro t0 h
        exact absurd h (by simp)
      · intro τ2 hm2 hlt
        rfl
      · intro t0 h
        exact absurd h (by simp)

/-- Every reachable timed state satisfies the invariant. -/
theorem hazInv_reach {s : HazSys} (h : HazReach s) : HazInv s := by
  induction h with
  | init => exact hazInv_init
  | step hr hst ih => exact hazInv_step hst ih

/-- The high score never decreases across any single event. -/
theorem highScore_mono {s t : GameState} (hst : Step s t) :
    s.highScore ≤ t.highScore := by
  cases hst with
  | tickStep stream hgen hp hg hq =>
      unfold tick
      split_ifs with hw hsc ho he hh
      all_goals dsimp only
      all_goals omega
  | keyStep k hp hq => exact le_refl _
  | startStep stream h => exact le_refl _
  | spawnStep stream h hp hg hq => exact le_refl _
  | expireStep => exact le_refl _
  | pauseStep hp => exact le_refl _
  | menuStep => exact le_refl _

/-- Across any single event, if the score was within the high score
before, the new high score is the maximum of the old high score and the
new score, and the new score stays within the new high score. -/
theorem highScore_step {s t : GameState} (hst : Step s t)
    (hs : s.score ≤ s.highScore) :
    t.highScore = max s.highScore t.score ∧ t.score ≤ t.highScore := by
  cases hst with
  | tickStep stream hgen hp hg hq =>
      unfold tick
      split_ifs with hw hsc ho he hh
      all_goals dsimp only
      all_goals omega
  | keyStep k hp hq =>
      dsimp only
      exact ⟨by omega, hs⟩
  | startStep stream h =>
      unfold startGame
      dsimp only
      omega
  | spawnStep stream h hp hg hq =>
      unfold spawnObstacle
      dsimp only
      exact ⟨by omega, hs⟩
  | expireStep =>
      dsimp only
      exact ⟨by omega, hs⟩
  | pauseStep hp =>
      dsimp only
      exact ⟨by omega, hs⟩
  | menuStep =>
      dsimp only
      exact ⟨by omega, hs⟩

/-- Unfolding lemma for the maximum score of a trace. -/
theorem maxScore_cons (s : GameState) (l : List GameState) :
    maxScore (s :: l) = max s.score (maxScore l) := rfl

/-- Along any finite trace whose starting score is within its high
score, the final high score is the maximum of the starting high score
and every score attained on the trace. -/
theorem highScore_trace {s t : GameState} {l : List GameState}
    (htr : TraceG s t l) :
    s.score ≤ s.highScore →
      t.highScore = max s.highScore (maxScore l) ∧
      t.score ≤ t.highScore ∧ s.score ≤ maxScore l := by
  induction htr with
  | single u =>
      intro hs
      refine ⟨?_, hs, ?_⟩
      · rw [maxScore_cons]
        dsimp [maxScore]
        omega
      · rw [maxScore_cons]
        omega
  | cons hsu htr2 ih =>
      intro hs
      obtain ⟨h1, h2⟩ := highScore_step hsu hs
      obtain ⟨ih1, ih2, ih3⟩ := ih h2
      refine ⟨?_, ih2, ?_⟩
      · rw [maxScore_cons]
        omega
      · rw [maxScore_cons]
        omega

/-- Constant candidate stream: a sampler that always proposes the same
cell.  Used to instantiate the random stream at concrete inputs. -/
def constStream (p : Pos) : Nat → Pos := fun _ => p

/-- C2 counterexample: with committed heading RIGHT, the two inputs UP
then LEFT arriving within one tick window leave LEFT as the direction
the next tick commits, and LEFT is the exact opposite of RIGHT.  The
source compares each key only against the latest direction value, not
against the last heading a tick actually applied. -/
theorem reversal_two_inputs_cex :
    List.foldl handleKeyPress Direction.RIGHT [ArrowKey.up, ArrowKey.left] =
      opposite Direction.RIGHT := by
  decide

/-- C2 (amended): a single direction input never turns the direction
value into the exact opposite of the value it had when the input was
processed; the multi-input guarantee of the claim fails (see the
counterexample). -/
theorem single_input_no_reversal :
    ∀ (d : Direction) (k : ArrowKey), handleKeyPress d k ≠ opposite d := by
  intro d k
  cases d <;> cases k <;> decide

/-- C4: the self-collision check of the tick compares the new head
against the full pre-move body (the unmodified copy of prevSnake,
Index.tsx line 161), so any membership in the pre-move body - the
about-to-be-dropped tail cell included - terminates the run with kind
Self, and the fatal move is discarded. -/
theorem tail_collision_self (s : GameState) (stream : Nat → Pos)
    (hgen : ∃ n, hitsCell (newHead s :: s.snake) (stream n) = false)
    (hw : wallCollision (newHead s) = false) :
    (newHead s ∈ s.snake → (tick s stream hgen).2 = some CollisionKind.Self) ∧
    (∀ hne : s.snake ≠ [], newHead s = s.snake.getLast hne →
      (tick s stream hgen).2 = some CollisionKind.Self ∧
      (tick s stream hgen).1.snake = s.snake ∧
      (tick s stream hgen).1.isGameOver = true) := by
  constructor
  · intro hmem
    have hself : hitsCell s.snake (newHead s) = true := hitsCell_eq_true.mpr hmem
    simp [tick, hw, hself]
  · intro hne htail
    have hmem : newHead s ∈ s.snake := by
      rw [htail]
      exact List.getLast_mem hne
    have hself : hitsCell s.snake (newHead s) = true := hitsCell_eq_true.mpr hmem
    simp [tick, hw, hself]

/-- A length-4 snake bent into a hook, head at (5,5) heading DOWN: the
next head cell (5,6) is exactly the current tail cell. -/
def loopState : GameState :=
  { snake := [⟨5, 5⟩, ⟨4, 5⟩, ⟨4, 6⟩, ⟨5, 6⟩], direction := Direction.DOWN,
    food := ⟨0, 0⟩, isGameOver := false, isPlaying := true, isPaused := false,
    score := 0, highScore := 0, stored := none, obstacle := none }

/-- The constant sampler at (0,0) immediately yields a cell free of the
post-move body of loopState. -/
theorem loopState_hgen :
    ∃ n, hitsCell (newHead loopState :: loopState.snake) (constStream ⟨0, 0⟩ n) = false :=
  ⟨0, by decide⟩

/-- C4 witness: on loopState the move lands on the tail cell and the
tick reports Self, leaving the body unchanged. -/
theorem tail_collision_self_witness :
    wallCollision (newHead loopState) = false ∧
    newHead loopState = ⟨5, 6⟩ ∧
    (tick loopState (constStream ⟨0, 0⟩) loopState_hgen).2 = some CollisionKind.Self ∧
    (tick loopState (constStream ⟨0, 0⟩) loopState_hgen).1.snake = loopState.snake ∧
    (tick loopState (constStream ⟨0, 0⟩) loopState_hgen).1.isGameOver = true :=
  ⟨by decide, by decide,
    (tail_collision_self loopState (constStream ⟨0, 0⟩) loopState_hgen
      (by decide)).2 (by decide) (by decide)⟩

/-- C6: a terminal tick (one that reports any collision kind) returns
the previous state with only the run flags changed: body, score, high
score, food, obstacle and direction are all untouched, the game-over
flag is set and the playing flag cleared.  The fatal move is discarded
(Index.tsx lines 152-174 return prevSnake). -/
theorem terminal_tick_discards_move (s : GameState) (stream : Nat → Pos)
    (hgen : ∃ n, hitsCell (newHead s :: s.snake) (stream n) = false)
    (k : CollisionKind) (hterm : (tick s stream hgen).2 = some k) :
    (tick s stream hgen).1.snake = s.snake ∧
    (tick s stream hgen).1.score = s.score ∧
    (tick s stream hgen).1.highScore = s.highScore ∧
    (tick s stream hgen).1.food = s.food ∧
    (tick s stream hgen).1.obstacle = s.obstacle ∧
    (tick s stream hgen).1.direction = s.direction ∧
    (tick s stream hgen).1.isGameOver = true ∧
    (tick s stream hgen).1.isPlaying = false := by
  unfold tick at hterm ⊢
  split_ifs at hterm ⊢ with h1 h2 h3 h4 h5
  all_goals simp_all

/-- The scenario state of the claim: head at (19,10) heading RIGHT on
the 20 by 20 grid, mid-run with a nonzero score. -/
def wallState : GameState :=
  { snake := [⟨19, 10⟩, ⟨18, 10⟩, ⟨17, 10⟩], direction := Direction.RIGHT,
    food := ⟨0, 0⟩, isGameOver := false, isPlaying := true, isPaused := false,
    score := 3, highScore := 5, stored := some 5, obstacle := none }

/-- The constant sampler at (0,0) immediately yields a cell free of the
post-move body of wallState. -/
theorem wallState_hgen :
    ∃ n, hitsCell (newHead wallState :: wallState.snake) (constStream ⟨0, 0⟩ n) = false :=
  ⟨0, by decide⟩

/-- C6 witness: from wallState the next tick reports Wall and leaves
body and score untouched, exactly the scenario of the claim. -/
theorem terminal_tick_discards_move_witness :
    (tick wallState (constStream ⟨0, 0⟩) wallState_hgen).2 = some CollisionKind.Wall ∧
    (tick wallState (constStream ⟨0, 0⟩) wallState_hgen).1.snake = wallState.snake ∧
    (tick wallState (constStream ⟨0, 0⟩) wallState_hgen).1.score = wallState.score ∧
    (tick wallState (constStream ⟨0, 0⟩) wallState_hgen).1.isGameOver = true ∧
    (tick wallState (constStream ⟨0, 0⟩) wallState_hgen).1.isPlaying = false := by
  have h := terminal_tick_discards_move wallState (constStream ⟨0, 0⟩) wallState_hgen
    CollisionKind.Wall (by decide)
  exact ⟨by decide, h.1, h.2.1, h.2.2.2.2.2.2.1, h.2.2.2.2.2.2.2⟩

/-- C7: classification of a terminal tick is by priority: the tick is
terminal exactly when at least one of the three collision conditions
holds, the kind is Wall exactly on wall exit, Self exactly on a self
hit that is not a wall exit, and Hazard exactly on an obstacle hit that
is neither - so exactly one kind is reported per terminal tick, never
zero and never two. -/
theorem collision_classification (s : GameState) (stream : Nat → Pos)
    (hgen : ∃ n, hitsCell (newHead s :: s.snake) (stream n) = false) :
    ((tick s stream hgen).2 ≠ none ↔
      (wallCollision (newHead s) = true ∨ hitsCell s.snake (newHead s) = true ∨
        obstacleCollision s.obstacle (newHead s) = true)) ∧
    ((tick s stream hgen).2 = some CollisionKind.Wall ↔
      wallCollision (newHead s) = true) ∧
    ((tick s stream hgen).2 = some CollisionKind.Self ↔
      (wallCollision (newHead s) = false ∧ hitsCell s.snake (newHead s) = true)) ∧
    ((tick s stream hgen).2 = some CollisionKind.Hazard ↔
      (wallCollision (newHead s) = false ∧ hitsCell s.snake (newHead s) = false ∧
        obstacleCollision s.obstacle (newHead s) = true)) := by
  unfold tick
  split_ifs with h1 h2 h3 h4 h5
  all_goals simp_all

/-- C7 witness: at the wall scenario state the reported kind is Wall,
and the three characterizations agree with the concrete conditions. -/
theorem collision_classification_witness :
    ((tick wallState (constStream ⟨0, 0⟩) wallState_hgen).2 = some CollisionKind.Wall ↔
      wallCollision (newHead wallState) = true) ∧
    wallCollision (newHead wallState) = true :=
  ⟨(collision_classification wallState (constStream ⟨0, 0⟩) wallState_hgen).2.1,
    by decide⟩

/-- C5: a non-colliding tick reports no collision; if the new head is
the food cell the body grows by exactly one (the head is prepended and
no tail is dropped), the score rises by exactly one and a fresh food
cell is generated outside the post-move body; otherwise the tail cell
is dropped, the length is unchanged and food and score are untouched. -/
theorem growth_on_food (s : GameState) (stream : Nat → Pos)
    (hgen : ∃ n, hitsCell (newHead s :: s.snake) (stream n) = false)
    (hw : wallCollision (newHead s) = false)
    (hs : hitsCell s.snake (newHead s) = false)
    (ho : obstacleCollision s.obstacle (newHead s) = false) :
    (tick s stream hgen).2 = none ∧
    (newHead s = s.food →
      (tick s stream hgen).1.snake = newHead s :: s.snake ∧
      (tick s stream hgen).1.snake.length = s.snake.length + 1 ∧
      (tick s stream hgen).1.score = s.score + 1 ∧
      (tick s stream hgen).1.food ∉ (tick s stream hgen).1.snake) ∧
    (newHead s ≠ s.food →
      (tick s stream hgen).1.snake = (newHead s :: s.snake).dropLast ∧
      (tick s stream hgen).1.snake.length = s.snake.length ∧
      (tick s stream hgen).1.score = s.score ∧
      (tick s stream hgen).1.food = s.food) := by
  refine ⟨?_, ?_, ?_⟩
  · unfold tick
    simp [hw, hs, ho]
    split_ifs <;> rfl
  · intro hef
    have he : ((newHead s).x == s.food.x && (newHead s).y == s.food.y) = true :=
      eatTest_iff.mpr hef
    unfold tick
    simp [hw, hs, ho, he]
    split_ifs with hh
    · refine ⟨rfl, by simp, rfl, ?_⟩
      simpa using generateFood_not_mem (newHead s :: s.snake) stream hgen
    · refine ⟨rfl, by simp, rfl, ?_⟩
      simpa using generateFood_not_mem (newHead s :: s.snake) stream hgen
  · intro hef
    have he : ((newHead s).x == s.food.x && (newHead s).y == s.food.y) = false := by
      rw [Bool.eq_false_iff]
      intro hx
      exact hef (eatTest_iff.mp hx)
    unfold tick
    simp [hw, hs, ho, he]

/-- The scenario state of the claim: body [(5,5),(4,5),(3,5)] heading
RIGHT with food directly ahead at (6,5). -/
def eatState : GameState :=
  { snake := [⟨5, 5⟩, ⟨4, 5⟩, ⟨3, 5⟩], direction := Direction.RIGHT,
    food := ⟨6, 5⟩, isGameOver := false, isPlaying := true, isPaused := false,
    score := 0, highScore := 0, stored := none, obstacle := none }

/-- The constant sampler at (0,0) immediately yields a cell free of the
post-move body of eatState. -/
theorem eatState_hgen :
    ∃ n, hitsCell (newHead eatState :: eatState.snake) (constStream ⟨0, 0⟩ n) = false :=
  ⟨0, by decide⟩

/-- C5 witness: the scenario tick grows the body to
[(6,5),(5,5),(4,5),(3,5)], scores one point and regenerates food
outside the new body. -/
theorem growth_on_food_witness :
    wallCollision (newHead eatState) = false ∧
    hitsCell eatState.snake (newHead eatState) = false ∧
    obstacleCollision eatState.obstacle (newHead eatState) = false ∧
    newHead eatState = eatState.food ∧
    (tick eatState (constStream ⟨0, 0⟩) eatState_hgen).1.snake =
      [⟨6, 5⟩, ⟨5, 5⟩, ⟨4, 5⟩, ⟨3, 5⟩] ∧
    (tick eatState (constStream ⟨0, 0⟩) eatState_hgen).1.snake.length =
      eatState.snake.length + 1 ∧
    (tick eatState (constStream ⟨0, 0⟩) eatState_hgen).1.score = eatState.score + 1 ∧
    (tick eatState (constStream ⟨0, 0⟩) eatState_hgen).1.food ∉
      (tick eatState (constStream ⟨0, 0⟩) eatState_hgen).1.snake := by
  have h := (growth_on_food eatState (constStream ⟨0, 0⟩) eatState_hgen
    (by decide) (by decide) (by decide)).2.1 (by decide)
  exact ⟨by decide, by decide, by decide, by decide, by rw [h.1]; decide,
    h.2.1, h.2.2.1, h.2.2.2⟩

/-- The sampler that proposes (15,15), the food cell of the freshly
mounted component, finds it free of snake and obstacle at once. -/
theorem spawn_on_food_hgen :
    ∃ n, hitsCell ((initialState none).snake ++ (initialState none).obstacle.toList)
      (constStream ⟨15, 15⟩ n) = false :=
  ⟨0, by decide⟩

/-- C1 counterexample: the hazard spawner samples only against the
snake and the existing obstacle (Index.tsx line 114), not against the
food cell, so from the freshly mounted component a spawn firing can
place the obstacle exactly on the current food cell (15,15). -/
theorem spawnObstacle_on_food_cex :
    (spawnObstacle (initialState none) (constStream ⟨15, 15⟩) spawn_on_food_hgen).obstacle =
      some (initialState none).food ∧
    (initialState none).food = ⟨15, 15⟩ :=
  ⟨rfl, rfl⟩

/-- C1 (amended): in every reachable state the food cell lies outside
the snake body; every cell the hazard spawner chooses is outside the
snake body and distinct from the existing hazard; and every cell food
regeneration chooses is outside the occupancy list it is given (the
post-move body at the call site of Index.tsx line 193).  The original
further requirement that the spawner avoid the current food cell does
not hold (see the counterexample), so hazard and food can coincide. -/
theorem food_disjointness_amended :
    (∀ (h0 : Option Nat) (s : GameState), ReachableG h0 s → s.food ∉ s.snake) ∧
    (∀ (s : GameState) (stream : Nat → Pos)
        (h : ∃ n, hitsCell (s.snake ++ s.obstacle.toList) (stream n) = false),
      ∃ c, (spawnObstacle s stream h).obstacle = some c ∧
        c ∉ s.snake ∧ c ∉ s.obstacle.toList) ∧
    (∀ (body : List Pos) (stream : Nat → Pos)
        (h : ∃ n, hitsCell body (stream n) = false),
      generateFood body stream h ∉ body) := by
  refine ⟨fun h0 s hr => foodInv hr, ?_,
    fun body stream h => generateFood_not_mem body stream h⟩
  intro s stream h
  refine ⟨generateFood (s.snake ++ s.obstacle.toList) stream h, rfl, ?_, ?_⟩
  · intro hmem
    exact generateFood_not_mem _ stream h (List.mem_append.mpr (Or.inl hmem))
  · intro hmem
    exact generateFood_not_mem _ stream h (List.mem_append.mpr (Or.inr hmem))

/-- The constant sampler at (0,0) finds a cell free of snake and
obstacle of the freshly mounted component. -/
theorem wit_spawn_hgen :
    ∃ n, hitsCell ((initialState none).snake ++ (initialState none).obstacle.toList)
      (constStream ⟨0, 0⟩ n) = false :=
  ⟨0, by decide⟩

/-- The constant sampler at (0,0) finds a cell free of the initial
snake. -/
theorem wit_gen_hgen :
    ∃ n, hitsCell INITIAL_SNAKE (constStream ⟨0, 0⟩ n) = false :=
  ⟨0, by decide⟩

/-- C1 witness: the amended disjointness facts evaluated at the freshly
mounted component and the constant sampler at (0,0). -/
theorem food_disjointness_amended_witness :
    (initialState none).food ∉ (initialState none).snake ∧
    (∃ c, (spawnObstacle (initialState none) (constStream ⟨0, 0⟩) wit_spawn_hgen).obstacle =
        some c ∧ c ∉ (initialState none).snake ∧ c ∉ (initialState none).obstacle.toList) ∧
    generateFood INITIAL_SNAKE (constStream ⟨0, 0⟩) wit_gen_hgen ∉ INITIAL_SNAKE :=
  ⟨food_disjointness_amended.1 none (initialState none) ReachableG.init,
    food_disjointness_amended.2.1 (initialState none) (constStream ⟨0, 0⟩) wit_spawn_hgen,
    food_disjointness_amended.2.2 INITIAL_SNAKE (constStream ⟨0, 0⟩) wit_gen_hgen⟩

/-- A tick that reports no collision passed all three collision
checks. -/
theorem tick_none_conditions (s : GameState) (stream : Nat → Pos)
    (hgen : ∃ n, hitsCell (newHead s :: s.snake) (stream n) = false)
    (h2 : (tick s stream hgen).2 = none) :
    wallCollision (newHead s) = false ∧ hitsCell s.snake (newHead s) = false ∧
      obstacleCollision s.obstacle (newHead s) = false := by
  unfold tick at h2
  split_ifs at h2 with hw hs ho he hh
  · exact ⟨Bool.eq_false_iff.mpr hw, Bool.eq_false_iff.mpr hs, Bool.eq_false_iff.mpr ho⟩
  · exact ⟨Bool.eq_false_iff.mpr hw, Bool.eq_false_iff.mpr hs, Bool.eq_false_iff.mpr ho⟩
  · exact ⟨Bool.eq_false_iff.mpr hw, Bool.eq_false_iff.mpr hs, Bool.eq_false_iff.mpr ho⟩

/-- C9 counterexample: the component loads the persisted high score 5
at mount; on the trivial trace made of that single state the high score
is 5 while the maximum score achieved since process start is 0, so the
high score does not equal the maximum score achieved across runs since
process start. -/
theorem bestScore_trace_cex :
    TraceG (initialState (some 5)) (initialState (some 5)) [initialState (some 5)] ∧
    (initialState (some 5)).highScore = 5 ∧
    maxScore [initialState (some 5)] = 0 ∧
    (initialState (some 5)).highScore ≠ maxScore [initialState (some 5)] :=
  ⟨TraceG.single _, rfl, rfl, by decide⟩

/-- C9 (amended): the high score never decreases across any event; a
start signal resets the score to 0 but leaves high score and persisted
value untouched; at a non-colliding food tick the high score and the
persisted value are updated to the new score exactly when the new score
exceeds the old high score, and untouched otherwise; and along every
trace from process start the high score equals the maximum of the
initially loaded persisted value and every score attained on the trace
(not the attained maximum alone - see the counterexample). -/
theorem bestScore_amended :
    (∀ s t : GameState, Step s t → s.highScore ≤ t.highScore) ∧
    (∀ (s : GameState) (stream : Nat → Pos)
        (h : ∃ n, hitsCell INITIAL_SNAKE (stream n) = false),
      (startGame s stream h).highScore = s.highScore ∧
      (startGame s stream h).stored = s.stored ∧
      (startGame s stream h).score = 0) ∧
    (∀ (s : GameState) (stream : Nat → Pos)
        (hgen : ∃ n, hitsCell (newHead s :: s.snake) (stream n) = false),
      ((tick s stream hgen).2 = none → newHead s = s.food →
        s.highScore < s.score + 1 →
        (tick s stream hgen).1.score = s.score + 1 ∧
        (tick s stream hgen).1.highScore = s.score + 1 ∧
        (tick s stream hgen).1.stored = some (s.score + 1)) ∧
      ((tick s stream hgen).2 = none → newHead s = s.food →
        ¬ s.highScore < s.score + 1 →
        (tick s stream hgen).1.score = s.score + 1 ∧
        (tick s stream hgen).1.highScore = s.highScore ∧
        (tick s stream hgen).1.stored = s.stored)) ∧
    (∀ (h0 : Option Nat) (t : GameState) (l : List GameState),
      TraceG (initialState h0) t l →
        t.highScore = max (initialState h0).highScore (maxScore l)) := by
  refine ⟨fun s t hst => highScore_mono hst, ?_, ?_, ?_⟩
  · intro s stream h
    unfold startGame
    exact ⟨rfl, rfl, rfl⟩
  · intro s stream hgen
    constructor
    · intro h2 hef hh
      obtain ⟨hw, hs, ho⟩ := tick_none_conditions s stream hgen h2
      have he : ((newHead s).x == s.food.x && (newHead s).y == s.food.y) = true :=
        eatTest_iff.mpr hef
      unfold tick
      simp [hw, hs, ho, he, hh]
    · intro h2 hef hh
      obtain ⟨hw, hs, ho⟩ := tick_none_conditions s stream hgen h2
      have he : ((newHead s).x == s.food.x && (newHead s).y == s.food.y) = true :=
        eatTest_iff.mpr hef
      unfold tick
      simp [hw, hs, ho, he, hh]
  · intro h0 t l htr
    exact (highScore_trace htr (Nat.zero_le _)).1

/-- C9 witness: a start from the loaded-5 state keeps the high score
and resets the score, and the trivial trace identity evaluated there. -/
theorem bestScore_amended_witness :
    (startGame (initialState (some 5)) (constStream ⟨0, 0⟩) wit_gen_hgen).highScore =
      (initialState (some 5)).highScore ∧
    (startGame (initialState (some 5)) (constStream ⟨0, 0⟩) wit_gen_hgen).score = 0 ∧
    (initialState (some 5)).highScore =
      max (initialState (some 5)).highScore (maxScore [initialState (some 5)]) :=
  ⟨(bestScore_amended.2.1 (initialState (some 5)) (constStream ⟨0, 0⟩) wit_gen_hgen).1,
    (bestScore_amended.2.1 (initialState (some 5)) (constStream ⟨0, 0⟩) wit_gen_hgen).2.2,
    bestScore_amended.2.2.2 (some 5) (initialState (some 5)) [initialState (some 5)]
      (TraceG.single (initialState (some 5)))⟩

/-- A cell of the 20 by 20 grid: the range of the sampler
Math.floor(Math.random() * GRID_SIZE) for each coordinate
(Index.tsx lines 56-59). -/
def inGrid (p : Pos) : Prop :=
  0 ≤ p.x ∧ p.x < GRID_SIZE ∧ 0 ≤ p.y ∧ p.y < GRID_SIZE

instance (p : Pos) : Decidable (inGrid p) := by
  unfold inGrid
  infer_instance

/-- Fairness of a candidate stream: it eventually proposes every cell
of the grid.  This is the almost-sure behaviour of the uniform sampler
of generateFood and is the modelling assumption standing in for the
probability-1 termination of its rejection loop. -/
def gridFair (stream : Nat → Pos) : Prop :=
  ∀ p : Pos, inGrid p → ∃ n, stream n = p

/-- A deterministic stream that enumerates the whole grid row by row. -/
def cycleStream : Nat → Pos :=
  fun n => ⟨(n % 20 : Nat), ((n / 20) % 20 : Nat)⟩

/-- The row-by-row enumeration is fair for the grid. -/
theorem cycleStream_fair : gridFair cycleStream := by
  intro p hp
  obtain ⟨hx0, hxN, hy0, hyN⟩ := hp
  rw [GRID_SIZE] at hxN hyN
  refine ⟨p.x.toNat + 20 * p.y.toNat, ?_⟩
  have hxmod : (p.x.toNat + 20 * p.y.toNat) % 20 = p.x.toNat := by omega
  have hydiv : ((p.x.toNat + 20 * p.y.toNat) / 20) % 20 = p.y.toNat := by omega
  rw [Pos.eq_iff]
  unfold cycleStream
  refine ⟨?_, ?_⟩
  · dsimp only
    rw [hxmod]
    exact Int.toNat_of_nonneg hx0
  · dsimp only
    rw [hydiv]
    exact Int.toNat_of_nonneg hy0

/-- C10: the rejection sampler of generateFood, run on any candidate
stream, terminates exactly when some candidate is free of the occupancy
list, and then returns a free cell (in the embedding the accepted index
is the Nat.find witness of the hypothesis).  For a fair stream - the
almost-sure behaviour of the uniform sampler - a free candidate exists
whenever the occupancy does not cover the whole grid; and when the
occupancy covers every grid cell, no candidate of a grid-valued stream
is ever accepted, so the do-while loop of Index.tsx lines 55-62 never
exits. -/
theorem generateFood_termination :
    (∀ (body : List Pos) (stream : Nat → Pos)
        (h : ∃ n, hitsCell body (stream n) = false),
      hitsCell body (generateFood body stream h) = false ∧
        generateFood body stream h ∉ body) ∧
    (∀ (body : List Pos) (stream : Nat → Pos), gridFair stream →
      (∃ c : Pos, inGrid c ∧ c ∉ body) →
      ∃ n, hitsCell body (stream n) = false) ∧
    (∀ (body : List Pos) (stream : Nat → Pos),
      (∀ p : Pos, inGrid p → p ∈ body) → (∀ n, inGrid (stream n)) →
      ¬ ∃ n, hitsCell body (stream n) = false) := by
  refine ⟨?_, ?_, ?_⟩
  · intro body stream h
    exact ⟨generateFood_free body stream h, generateFood_not_mem body stream h⟩
  · intro body stream hfair hfree
    obtain ⟨c, hc, hnb⟩ := hfree
    obtain ⟨n, hn⟩ := hfair c hc
    refine ⟨n, ?_⟩
    rw [hn]
    exact hitsCell_eq_false.mpr hnb
  · intro body stream hcov hin hex
    obtain ⟨n, hn⟩ := hex
    exact hitsCell_eq_false.mp hn (hcov (stream n) (hin n))

/-- C10 witness: the fair enumeration, a free cell outside the initial
snake, the resulting accepted candidate, and the freeness of the cell
generateFood returns, all at concrete inputs. -/
theorem generateFood_termination_witness :
    gridFair cycleStream ∧
    inGrid ⟨0, 0⟩ ∧ (⟨0, 0⟩ : Pos) ∉ INITIAL_SNAKE ∧
    (∃ n, hitsCell INITIAL_SNAKE (cycleStream n) = false) ∧
    hitsCell INITIAL_SNAKE
      (generateFood INITIAL_SNAKE (constStream ⟨0, 0⟩) wit_gen_hgen) = false :=
  ⟨cycleStream_fair, by decide, by decide,
    generateFood_termination.2.1 INITIAL_SNAKE cycleStream cycleStream_fair
      ⟨⟨0, 0⟩, by decide, by decide⟩,
    (generateFood_termination.1 INITIAL_SNAKE (constStream ⟨0, 0⟩) wit_gen_hgen).1⟩

/-- Timed state one start event after page load: running, no obstacle,
first spawn due a full period after the start. -/
def hazS1 : HazSys :=
  { now := 0, lastStart := 0, running := true, obstacle := none,
    timeouts := [], nextFire := some 8000 }

/-- hazS1 is reachable: page load followed by a start at time 0. -/
theorem hazS1_reach : HazReach hazS1 :=
  HazReach.step HazReach.init (HazStep.startEv hazInit 0 (le_refl 0))

/-- Timed state of the scenario of the claim: start at 0, obstacle
spawned at 8000 (expiry armed for 13000), run stopped at 9000, new run
started at 9500.  The stale expiry of the dead run is still pending and
the fresh run has no obstacle. -/
def hazS4 : HazSys :=
  { now := 9500, lastStart := 9500, running := true, obstacle := none,
    timeouts := [8000], nextFire := some 17500 }

/-- hazS4 is reachable through the scenario events. -/
theorem hazS4_reach : HazReach hazS4 := by
  have h2 : HazReach ({ now := 8000, lastStart := 0, running := true, obstacle := some 8000, timeouts := [8000], nextFire := some 16000 } : HazSys) := by
    refine HazReach.step hazS1_reach (HazStep.spawnEv hazS1 8000 rfl rfl (by decide) ?_)
    intro τ hτ
    exact absurd hτ (List.not_mem_nil τ)
  have h3 : HazReach ({ now := 9000, lastStart := 0, running := false, obstacle := some 8000, timeouts := [8000], nextFire := none } : HazSys) :=
    HazReach.step h2 (HazStep.stopEv _ 9000 (by decide))
  exact HazReach.step h3 (HazStep.startEv _ 9500 (by decide))

/-- C3: a start signal always begins the fresh run with no hazard
(startGame executes setObstacle(null), Index.tsx line 328); and in
every reachable timed state in which an expiry one-shot armed before
the current run start is still pending, no hazard is live - so when
that stale callback fires, its setObstacle(null) finds the obstacle
already absent and the run state it leaves behind equals the state it
found.  In particular a stale expiry can never clear a hazard spawned
by the new run: the new run cannot have spawned one yet, because the
stale expiry is due before lastStart + OBSTACLE_SPAWN_INTERVAL, the
earliest possible spawn of the new run. -/
theorem stale_expiry_harmless :
    (∀ (s : GameState) (stream : Nat → Pos)
        (h : ∃ n, hitsCell INITIAL_SNAKE (stream n) = false),
      (startGame s stream h).obstacle = none) ∧
    (∀ s : HazSys, HazReach s → ∀ τ ∈ s.timeouts, τ < s.lastStart →
      s.obstacle = none) ∧
    (∀ s : HazSys, HazReach s → ∀ τ ∈ s.timeouts, τ < s.lastStart →
      ({ s with now := τ + OBSTACLE_LIFETIME, obstacle := none, timeouts := s.timeouts.erase τ } : HazSys).obstacle = s.obstacle) := by
  refine ⟨fun s stream h => rfl, ?_, ?_⟩
  · intro s hr τ hmem hlt
    obtain ⟨hA, hB, hC, hD, hE⟩ := hazInv_reach hr
    exact hD τ hmem hlt
  · intro s hr τ hmem hlt
    obtain ⟨hA, hB, hC, hD, hE⟩ := hazInv_reach hr
    rw [hD τ hmem hlt]

/-- C3 witness: in the concrete scenario state the stale expiry armed
at 8000 is pending, the run start is 9500, and no hazard is live; and
the concrete startGame call clears the obstacle. -/
theorem stale_expiry_harmless_witness :
    (startGame (initialState none) (constStream ⟨0, 0⟩) wit_gen_hgen).obstacle = none ∧
    8000 ∈ hazS4.timeouts ∧ 8000 < hazS4.lastStart ∧
    hazS4.obstacle = none :=
  ⟨stale_expiry_harmless.1 (initialState none) (constStream ⟨0, 0⟩) wit_gen_hgen,
    by decide, by decide,
    stale_expiry_harmless.2.1 hazS4 hazS4_reach 8000 (by decide) (by decide)⟩

/-- C8: in every reachable timed state in which the spawn interval can
fire (running, a firing due that the clock has not passed, and no
pending expiry due earlier - the event loop runs earlier-due timers
first), no hazard is live.  Hence every firing of spawnObstacle happens
with no existing hazard, and no firing ever replaces or relocates one:
a live hazard expires OBSTACLE_LIFETIME after its spawn, strictly
before the next interval firing, which is a full
OBSTACLE_SPAWN_INTERVAL after that spawn. -/
theorem spawn_only_without_hazard :
    ∀ s : HazSys, HazReach s → s.running = true → ∀ f, s.nextFire = some f →
      s.now ≤ f → (∀ τ ∈ s.timeouts, f ≤ τ + OBSTACLE_LIFETIME) →
      s.obstacle = none := by
  intro s hr hrun f hf hnow hord
  obtain ⟨hA, hB, hC, hD, hE⟩ := hazInv_reach hr
  cases hobs : s.obstacle with
  | none => rfl
  | some t0 =>
      obtain ⟨h1, h2, h3⟩ := hC t0 hobs
      have h4 := hord t0 h3
      have h5 := hE t0 hobs f hf
      have h6 := lifetime_lt_interval
      omega

/-- C8 witness: right after the start at time 0 the interval is armed
for 8000 with no pending expiry, and indeed no hazard is live. -/
theorem spawn_only_without_hazard_witness :
    hazS1.running = true ∧ hazS1.nextFire = some 8000 ∧ hazS1.now ≤ 8000 ∧
    hazS1.obstacle = none :=
  ⟨rfl, rfl, by decide,
    spawn_only_without_hazard hazS1 hazS1_reach rfl 8000 rfl (by decide)
      (fun τ hτ => absurd hτ (List.not_mem_nil τ))⟩
